import Mathlib

/-!
Verification of the grouping, metric-eligibility, and scoring-orchestration
engine of `scripts/ragas_eval.py`.

The Python module is shallowly embedded: JSON-like values become the
inductive type `Value` (with extra constructors for tuples and for foreign
objects such as numpy scalars, which `normalize_json_value` must handle),
rows become association lists from field names to values, and the external
RAGAS metric scorer (`ragas.evaluate` plus the pandas round-trip) becomes an
abstract function parameter `Scorer` returning either scored records or an
error message, mirroring the contract the Python code relies on.
Python numbers are modelled as rationals: both `int` and `float` inhabit the
`Value.num` constructor, and `bool` is kept separate (as in Python, where
`bool` is a subclass of `int`, the numeric checks below deliberately accept
booleans, matching `isinstance(value, (int, float))`).
-/

set_option maxHeartbeats 1000000

/-- A JSON-like runtime value as manipulated by `ragas_eval.py`.
`tup` models Python tuples and `foreign` models non-JSON objects
(`item` is the result of a successful `.item()` call when the object has
one; `reprStr` is its `str(...)` rendering). -/
inductive Value where
  | null : Value
  | str (s : String) : Value
  | num (q : ℚ) : Value
  | bool (b : Bool) : Value
  | list (items : List Value) : Value
  | obj (fields : List (String × Value)) : Value
  | tup (items : List Value) : Value
  | foreign (reprStr : String) (item : Option Value) : Value

/-- Python's whitespace stripping, left end: drop leading whitespace
characters. Structurally recursive so that concrete runs reduce. -/
def drop_leading_ws : List Char → List Char
  | [] => []
  | c :: cs => if c.isWhitespace then drop_leading_ws cs else c :: cs

/-- Python `str.strip()`: remove whitespace from both ends. -/
def py_strip (s : String) : String :=
  String.mk (List.reverse (drop_leading_ws (List.reverse (drop_leading_ws s.data))))

/-- Python `str.lower()`: lower-case every character. -/
def py_lower (s : String) : String :=
  String.mk (s.data.map Char.toLower)

/-- Python `str.replace("_", "-")`: character-wise since the pattern is a single
character. -/
def py_replace_uscore (s : String) : String :=
  String.mk (s.data.map (fun c => if c = '_' then '-' else c))

/-- Code-point lexicographic comparison of character lists, the order
Python's `sorted` uses on strings. -/
def chars_le : List Char → List Char → Bool
  | [], _ => true
  | _ :: _, [] => false
  | a :: as, b :: bs => if a = b then chars_le as bs else decide (a < b)

/-- Code-point lexicographic order on strings. -/
def py_str_le (a b : String) : Bool :=
  chars_le a.data b.data

/-- A row is a Python dict with string keys: an association list in
insertion order, with unique keys maintained by the update operation. -/
abbrev Row : Type := List (String × Value)

/-- Python `row.get(key)`: first binding of `key`, if any. -/
def Row.get (row : Row) (key : String) : Option Value :=
  List.lookup key row

/-- Python `row[key] = v`: replace the value of an existing key in place, else
append the new binding at the end (Python dict assignment). -/
def Row.set (row : Row) (key : String) (v : Value) : Row :=
  if (List.any row (fun p => p.1 == key)) then
    List.map (fun p => if p.1 == key then (p.1, v) else p) row
  else
    row ++ [(key, v)]

/-- Source `has_value(row, key)`: a field is usable unless the key
is absent, the value is `None`, a string that is empty after stripping, or
an empty list; everything else (including `0`, `0.0`, `False`, dicts,
tuples, foreign objects) counts as present. -/
def has_value (row : Row) (key : String) : Bool :=
  match Row.get row key with
  | none => false
  | some Value.null => false
  | some (Value.str s) => py_strip s != ""
  | some (Value.list l) => !l.isEmpty
  | some _ => true

mutual

/-- Source `normalize_json_value`: rebuild dicts and lists,
convert tuples to lists, extract a scalar from objects exposing `.item()`
(falling back to `str(value)` when the call fails), pass JSON primitives
through, and stringify anything else. -/
def normalize_json_value : Value → Value
  | Value.obj fields => Value.obj (normalize_fields fields)
  | Value.list items => Value.list (normalize_values items)
  | Value.tup items => Value.list (normalize_values items)
  | Value.foreign _ (some v) => v
  | Value.foreign r none => Value.str r
  | Value.null => Value.null
  | Value.str s => Value.str s
  | Value.num q => Value.num q
  | Value.bool b => Value.bool b

/-- Normalization mapped over the elements of a list value. -/
def normalize_values : List Value → List Value
  | [] => []
  | v :: vs => normalize_json_value v :: normalize_values vs

/-- Normalization mapped over the entries of a dict value. -/
def normalize_fields : List (String × Value) → List (String × Value)
  | [] => []
  | (k, v) :: rest => (k, normalize_json_value v) :: normalize_fields rest

end

/-- Source `normalize_json_value(row)` applied to a top-level row (always a dict). -/
def normalize_row (row : Row) : Row :=
  normalize_fields row

/-- Source `get_group_key`, metadata fallback: the trimmed `metadata.category`
nested field when `metadata` is a dict holding a non-blank string there,
else the literal `"uncategorized"`. -/
def group_key_from_metadata (row : Row) : String :=
  match Row.get row "metadata" with
  | some (Value.obj fields) =>
    match List.lookup "category" fields with
    | some (Value.str nested) =>
      if py_strip nested != "" then py_strip nested else "uncategorized"
    | _ => "uncategorized"
  | _ => "uncategorized"

/-- Source `get_group_key`: constant `"all"` when grouping is
disabled (`group_by == "none"`), else the trimmed `category` field when it
is a non-blank string, else the metadata fallback. -/
def get_group_key (row : Row) (group_by : String) : String :=
  if group_by == "none" then "all"
  else
    match Row.get row "category" with
    | some (Value.str category) =>
      if py_strip category != "" then py_strip category else group_key_from_metadata row
    | _ => group_key_from_metadata row

/-- One `grouped.setdefault(key, []).append(row)` step: append the row to
its key's bucket, creating the bucket at the end on first sight of the key
(Python dict insertion order). -/
def insert_grouped (grouped : List (String × List Row)) (key : String) (row : Row) :
    List (String × List Row) :=
  match grouped with
  | [] => [(key, [row])]
  | (k, rs) :: rest =>
    if k == key then (k, rs ++ [row]) :: rest
    else (k, rs) :: insert_grouped rest key row

/-- Source `group_rows`: partition rows by resolved group key,
buckets in first-seen key order, rows in original order within a bucket. -/
def group_rows (rows : List Row) (group_by : String) : List (String × List Row) :=
  List.foldl (fun acc row => insert_grouped acc (get_group_key row group_by) row) [] rows

/-- Source `normalize_group_name`: strip, lower-case, replace
underscores with hyphens. -/
def normalize_group_name (group_name : String) : String :=
  py_replace_uscore (py_lower (py_strip group_name))

/-- Source `get_default_metric_preferences`: the default metric
preference table keyed by normalized group name. -/
def get_default_metric_preferences (group_name : String) : Option (List String) :=
  let normalized := normalize_group_name group_name
  if normalized == "qa" then
    some ["semantic_similarity", "factual_correctness"]
  else if normalized == "work-search" || normalized == "work" then
    some ["semantic_similarity"]
  else
    none

/-- The `requirements` table of `pick_metric_names`: each known metric with
its required field names, in declaration order. -/
def requirements : List (String × List String) :=
  [("response_relevancy", ["user_input", "response"]),
   ("faithfulness", ["user_input", "response", "retrieved_contexts"]),
   ("context_recall", ["user_input", "reference", "retrieved_contexts"]),
   ("factual_correctness", ["user_input", "response", "reference"]),
   ("semantic_similarity", ["response", "reference"])]

/-- The five known metric identifiers, in declaration order (iteration over
the `requirements` dict). -/
def supported_metric_names : List String :=
  List.map Prod.fst requirements

/-- The `available` list of `pick_metric_names`: metrics whose every
required field has a usable value in every row, in declaration order. -/
def available (rows : List Row) : List String :=
  List.map Prod.fst
    (List.filter
      (fun entry => List.all rows (fun row => List.all entry.2 (fun key => has_value row key)))
      requirements)

/-- Python `sorted` on a list of strings: stable sort by code-point
lexicographic order. -/
def sorted_strings (l : List String) : List String :=
  List.insertionSort (fun a b => py_str_le a b = true) l

/-- The two fatal configuration errors `pick_metric_names` can raise
(both `ValueError` in Python, distinguished by the spec as
`UnsupportedMetricError` and `MissingFieldsError`), carrying the message. -/
inductive MetricError where
  | unsupportedMetric (message : String) : MetricError
  | missingFields (message : String) : MetricError
deriving DecidableEq, Repr

/-- The auto-select tail of `pick_metric_names`: filter the default
preferences down to available metrics and use that list when non-empty,
else the full available list. -/
def auto_selected (avail : List String) (group_name : String) : List String :=
  match get_default_metric_preferences group_name with
  | some preferred_metrics =>
    let selected := List.filter (fun name => List.contains avail name) preferred_metrics
    if !selected.isEmpty then selected else avail
  | none => avail

/-- Source `pick_metric_names`: validate an explicit request
against the known metrics and the per-group availability, or auto-select
from preferences and availability; returns `(selected, available)`. -/
def pick_metric_names (rows : List Row) (requested_metrics : Option (List String))
    (group_name : String) : Except MetricError (List String × List String) :=
  let avail := available rows
  match requested_metrics with
  | some requested =>
    if requested.isEmpty then Except.ok (auto_selected avail group_name, avail)
    else
      let unsupported :=
        List.filter (fun metric => !(List.contains supported_metric_names metric)) requested
      if !unsupported.isEmpty then
        Except.error (MetricError.unsupportedMetric
          ("Unsupported metrics: " ++ String.intercalate ", " (sorted_strings unsupported)
            ++ ". Supported metrics: "
            ++ String.intercalate ", " (sorted_strings supported_metric_names)))
      else
        let missing_inputs :=
          List.filter (fun name => !(List.contains avail name)) requested
        if !missing_inputs.isEmpty then
          Except.error (MetricError.missingFields
            ("Requested metrics are missing required fields in at least one row: "
              ++ String.intercalate ", " missing_inputs))
        else Except.ok (requested, avail)
  | none => Except.ok (auto_selected avail group_name, avail)

/-- The external Metric Scorer (`ragas.evaluate` plus
`result.to_pandas().to_dict(orient="records")`): given a metric name and
the group's rows, it returns the per-row scored records or fails with an
error message. The orchestrator treats it as a black box. -/
abbrev Scorer : Type := String → List Row → Except String (List Row)

/-- Source check `float(row[metric_name])` guarded by
`isinstance(row.get(metric_name), (int, float))`: numbers pass through and
booleans — a subclass of `int` in Python — are accepted as 1 or 0;
everything else is rejected. -/
def value_as_float : Option Value → Option ℚ
  | some (Value.num q) => some q
  | some (Value.bool b) => some (if b then 1 else 0)
  | _ => none

/-- Source `fmean(values)` on a non-empty list; `score_metric` guards the empty
case and yields `None` there. -/
def fmean (values : List ℚ) : ℚ :=
  values.sum / (values.length : ℚ)

/-- Source `score_metric`: run the external scorer on the group's
rows, normalize the returned records, collect the numeric values the metric
produced, and pair the scored records with their mean (`None` when no row
produced a numeric value). -/
def score_metric (rows : List Row) (scorer : Scorer) (metric_name : String) :
    Except String (List Row × Option ℚ) :=
  match scorer metric_name rows with
  | Except.error e => Except.error e
  | Except.ok records =>
    let scored_rows := List.map normalize_row records
    let values := List.filterMap (fun row => value_as_float (Row.get row metric_name)) scored_rows
    Except.ok (scored_rows, if values.isEmpty then none else some (fmean values))

/-- The merge loop of `score_rows`:
`scored_rows[index][metric_name] = metric_row.get(metric_name)` for each
index of `metric_rows`; positions past the end of `metric_rows` keep their
row unchanged. -/
def merge_metric_column (scored_rows metric_rows : List Row) (metric_name : String) :
    List Row :=
  match scored_rows, metric_rows with
  | [], _ => []
  | rest, [] => rest
  | s :: ss, m :: ms =>
    Row.set s metric_name ((Row.get m metric_name).getD Value.null)
      :: merge_metric_column ss ms metric_name

/-- The state threaded through the metric loop of `score_rows`.
`originals` is the `rows` argument, which the loop reads but never writes;
`scored` starts as fresh normalized copies of the rows and receives all
score and null-marker writes. -/
structure ScoreState where
  originals : List Row
  scored : List Row
  summary : List (String × ℚ)
  failures : List (String × String)

/-- One iteration of the metric loop of `score_rows`: on scorer failure,
record the message under the metric's name and set the metric to null on
every scored row; on success, merge the metric's column into the scored
rows and record the mean in the summary when it exists. -/
def score_step (scorer : Scorer) (st : ScoreState) (metric_name : String) : ScoreState :=
  match score_metric st.originals scorer metric_name with
  | Except.error e =>
    { st with
      failures := st.failures ++ [(metric_name, e)]
      scored := List.map (fun row => Row.set row metric_name Value.null) st.scored }
  | Except.ok (metric_rows, average) =>
    { st with
      scored := merge_metric_column st.scored metric_rows metric_name
      summary :=
        match average with
        | some a => st.summary ++ [(metric_name, a)]
        | none => st.summary }

/-- Source `score_rows`, as the final state of the metric loop:
`scored` are the returned scored rows, `summary` the per-metric means,
`failures` the per-metric error messages. -/
def score_rows (rows : List Row) (metric_names : List String) (scorer : Scorer) :
    ScoreState :=
  List.foldl (score_step scorer)
    { originals := rows
      scored := List.map normalize_row rows
      summary := []
      failures := [] }
    metric_names

/-- The advisory message `main` stores under the `"_group"` sentinel key
when a group ends up with zero selected metrics. -/
def no_metrics_advisory : String :=
  "No compatible metrics could be selected from this group. Expected fields such as user_input, response, reference, and retrieved_contexts."

/-- Source statement `row["evaluation_group"] = group_name`, applied by `main` to every
reported row. -/
def tag_evaluation_group (group_name : String) (row : Row) : Row :=
  Row.set row "evaluation_group" (Value.str group_name)

/-- The per-group portion of the report `main` assembles. -/
structure GroupReport where
  row_count : Nat
  selected_metrics : List String
  auto_available_metrics : List String
  summary : List (String × ℚ)
  metric_failures : List (String × String)
  rows : List Row

/-- The body of `main`'s per-group loop: select metrics (configuration
errors propagate and abort the run), emit the advisory report when zero
metrics are selected, otherwise score the group; either way the reported
rows are tagged with the group name. -/
def process_group (scorer : Scorer) (requested_metrics : Option (List String))
    (group_name : String) (group_rows_list : List Row) :
    Except MetricError GroupReport :=
  match pick_metric_names group_rows_list requested_metrics group_name with
  | Except.error e => Except.error e
  | Except.ok (metric_names, available_metrics) =>
    if metric_names.isEmpty then
      Except.ok
        { row_count := group_rows_list.length
          selected_metrics := []
          auto_available_metrics := available_metrics
          summary := []
          metric_failures := [("_group", no_metrics_advisory)]
          rows := List.map (tag_evaluation_group group_name)
            (List.map normalize_row group_rows_list) }
    else
      let st := score_rows group_rows_list metric_names scorer
      Except.ok
        { row_count := group_rows_list.length
          selected_metrics := metric_names
          auto_available_metrics := available_metrics
          summary := st.summary
          metric_failures := st.failures
          rows := List.map (tag_evaluation_group group_name) st.scored }

/-! ## Specification-side definitions

These formalize the spec's own wording, to be compared with the embedded
source functions above. -/

/-- The trimmed content of an optional value when it is a non-blank string,
as the spec's group-resolution clauses describe it. -/
def trimmed_nonblank_string : Option Value → Option String
  | some (Value.str s) => if py_strip s = "" then none else some (py_strip s)
  | _ => none

/-- The spec's Group Resolver contract (§4.1), stated from its words: when
grouping is disabled the constant key for "all"; otherwise the trimmed
`category` field if it is a non-empty string, else the trimmed
`metadata.category` nested field if present and non-empty, else
`"uncategorized"`. -/
def resolve_group (record : Row) (grouping_mode : String) : String :=
  if grouping_mode = "none" then "all"
  else
    match trimmed_nonblank_string (Row.get record "category") with
    | some c => c
    | none =>
      match Row.get record "metadata" with
      | some (Value.obj fields) =>
        match trimmed_nonblank_string (List.lookup "category" fields) with
        | some c => c
        | none => "uncategorized"
      | _ => "uncategorized"

/-- The spec's notion of a usable field value (§4.2), stated from its
words: not null, not a string that is empty after trimming, not an empty
list; everything else, including falsy numbers and booleans, is usable. An
absent field is not usable. -/
def usable_value : Option Value → Prop
  | none => False
  | some Value.null => False
  | some (Value.str s) => py_strip s ≠ ""
  | some (Value.list l) => l ≠ []
  | some _ => True

/-- The required field set of a known metric, read off the `requirements`
table. -/
def required_fields (metric_name : String) : List String :=
  (List.lookup metric_name requirements).getD []

/-- The spec's auto-selection rule (§4.3), stated from its words: look up a
default preference ordering keyed by the normalized group name; if a
preference list exists, filter it down to eligible metrics and return that
(order preserved) if non-empty; otherwise return the full eligible set. -/
def spec_auto_selection (eligible : List String) (group_name : String) : List String :=
  let preference : Option (List String) :=
    if normalize_group_name group_name = "qa" then
      some ["semantic_similarity", "factual_correctness"]
    else if normalize_group_name group_name = "work-search"
        ∨ normalize_group_name group_name = "work" then
      some ["semantic_similarity"]
    else none
  match preference with
  | some preferred =>
    let filtered := List.filter (fun name => decide (name ∈ eligible)) preferred
    if filtered ≠ [] then filtered else eligible
  | none => eligible

/-! ## Helper lemmas -/

theorem has_value_iff_usable (row : Row) (key : String) :
    has_value row key = true ↔ usable_value (Row.get row key) := by
  unfold has_value usable_value
  rcases Row.get row key with _ | v
  · simp
  · cases v <;> simp [List.isEmpty_iff]

theorem lookup_map_replace (row : List (String × Value)) (key : String) (v : Value)
    (h : row.any (fun p => p.1 == key) = true) :
    List.lookup key
      (row.map (fun p => if (p.1 == key) = true then (p.1, v) else p)) = some v := by
  induction row with
  | nil => simp at h
  | cons p rest ih =>
    simp only [List.map_cons]
    by_cases hp : (p.1 == key) = true
    · rw [if_pos hp]
      have hk : (key == p.1) = true := by
        have hpe := eq_of_beq hp
        simp [hpe]
      simp [List.lookup, hk]
    · rw [if_neg hp]
      have hk : (key == p.1) = false := by
        rcases hkk : (key == p.1) with _ | _
        · rfl
        · exact absurd (by simp [eq_of_beq hkk]) hp
      simp only [List.lookup, hk]
      apply ih
      simpa [List.any_cons, hp] using h

theorem lookup_append_new (row : List (String × Value)) (key : String) (v : Value)
    (h : row.any (fun p => p.1 == key) = false) :
    List.lookup key (row ++ [(key, v)]) = some v := by
  induction row with
  | nil => simp [List.lookup]
  | cons p rest ih =>
    rw [List.any_cons] at h
    simp only [Bool.or_eq_false_iff] at h
    have hpk : p.1 ≠ key := fun hh => by simp [hh] at h
    have hk : (key == p.1) = false := by
      simpa using (fun hh => hpk hh.symm : key ≠ p.1)
    simp only [List.cons_append, List.lookup, hk]
    exact ih h.2

theorem lookup_map_replace_ne (row : List (String × Value)) (key other : String)
    (v : Value) (h : other ≠ key) :
    List.lookup other
      (row.map (fun p => if (p.1 == key) = true then (p.1, v) else p)) =
    List.lookup other row := by
  induction row with
  | nil => rfl
  | cons p rest ih =>
    simp only [List.map_cons]
    by_cases hp : (p.1 == key) = true
    · rw [if_pos hp]
      have hop : (other == p.1) = false := by
        simpa using fun hh => h (hh.trans (eq_of_beq hp))
      simp only [List.lookup, hop]
      exact ih
    · rw [if_neg hp]
      cases hoq : (other == p.1) with
      | true => simp only [List.lookup, hoq]
      | false =>
        simp only [List.lookup, hoq]
        exact ih

theorem lookup_append_single_ne (row : List (String × Value)) (key other : String)
    (v : Value) (h : other ≠ key) :
    List.lookup other (row ++ [(key, v)]) = List.lookup other row := by
  induction row with
  | nil => simp [List.lookup, (by simpa using h : (other == key) = false)]
  | cons p rest ih =>
    cases hoq : (other == p.1) with
    | true => simp only [List.cons_append, List.lookup, hoq]
    | false =>
      simp only [List.cons_append, List.lookup, hoq]
      exact ih

theorem row_get_set_same (row : Row) (key : String) (v : Value) :
    Row.get (Row.set row key v) key = some v := by
  unfold Row.set Row.get
  split
  · exact lookup_map_replace row key v (by assumption)
  · refine lookup_append_new row key v ?_
    rename_i hh
    cases hb : List.any row (fun p => p.1 == key) with
    | false => rfl
    | true => exact absurd hb hh

theorem row_get_set_ne (row : Row) (key other : String) (v : Value)
    (h : other ≠ key) :
    Row.get (Row.set row key v) other = Row.get row other := by
  unfold Row.set Row.get
  split
  · exact lookup_map_replace_ne row key other v h
  · exact lookup_append_single_ne row key other v h

/-- The contribution of a metric to the summary, read off `score_metric`. -/
def summary_entry (rows : List Row) (scorer : Scorer) (metric_name : String) :
    Option (String × ℚ) :=
  match score_metric rows scorer metric_name with
  | Except.ok (_, some a) => some (metric_name, a)
  | _ => none

/-- The contribution of a metric to the failure map, read off
`score_metric`. -/
def failure_entry (rows : List Row) (scorer : Scorer) (metric_name : String) :
    Option (String × String) :=
  match score_metric rows scorer metric_name with
  | Except.error e => some (metric_name, e)
  | _ => none

theorem score_step_originals (scorer : Scorer) (st : ScoreState) (n : String) :
    (score_step scorer st n).originals = st.originals := by
  unfold score_step
  rcases score_metric st.originals scorer n with e | ⟨mrows, avg⟩
  · rfl
  · rfl

theorem foldl_score_step_originals (scorer : Scorer) (l : List String) (st : ScoreState) :
    (List.foldl (score_step scorer) st l).originals = st.originals := by
  induction l generalizing st with
  | nil => rfl
  | cons n rest ih => rw [List.foldl_cons, ih, score_step_originals]

theorem foldl_score_step_summary (scorer : Scorer) (l : List String) (st : ScoreState) :
    (List.foldl (score_step scorer) st l).summary
      = st.summary ++ List.filterMap (summary_entry st.originals scorer) l := by
  induction l generalizing st with
  | nil => simp
  | cons n rest ih =>
    rw [List.foldl_cons, ih, score_step_originals, List.filterMap_cons]
    unfold summary_entry score_step
    rcases hsm : score_metric st.originals scorer n with e | ⟨mrows, avg⟩
    · simp
    · rcases avg with _ | a <;> simp

theorem foldl_score_step_failures (scorer : Scorer) (l : List String) (st : ScoreState) :
    (List.foldl (score_step scorer) st l).failures
      = st.failures ++ List.filterMap (failure_entry st.originals scorer) l := by
  induction l generalizing st with
  | nil => simp
  | cons n rest ih =>
    rw [List.foldl_cons, ih, score_step_originals, List.filterMap_cons]
    unfold failure_entry score_step
    rcases hsm : score_metric st.originals scorer n with e | ⟨mrows, avg⟩
    · simp
    · rcases avg with _ | a <;> simp

theorem score_rows_summary (rows : List Row) (metrics : List String) (scorer : Scorer) :
    (score_rows rows metrics scorer).summary
      = List.filterMap (summary_entry rows scorer) metrics := by
  unfold score_rows
  rw [foldl_score_step_summary]
  rfl

theorem score_rows_failures (rows : List Row) (metrics : List String) (scorer : Scorer) :
    (score_rows rows metrics scorer).failures
      = List.filterMap (failure_entry rows scorer) metrics := by
  unfold score_rows
  rw [foldl_score_step_failures]
  rfl

theorem merge_metric_column_length (s mrows : List Row) (n : String) :
    (merge_metric_column s mrows n).length = s.length := by
  induction s generalizing mrows with
  | nil => cases mrows <;> rfl
  | cons r rest ih =>
    cases mrows with
    | nil => rfl
    | cons mr mrest => simp [merge_metric_column, ih]

theorem score_step_scored_length (scorer : Scorer) (st : ScoreState) (n : String) :
    (score_step scorer st n).scored.length = st.scored.length := by
  unfold score_step
  rcases score_metric st.originals scorer n with e | ⟨mrows, avg⟩
  · simp
  · simp [merge_metric_column_length]

theorem score_rows_scored_length (rows : List Row) (metrics : List String) (scorer : Scorer) :
    (score_rows rows metrics scorer).scored.length = rows.length := by
  unfold score_rows
  generalize hst :
    ({ originals := rows, scored := List.map normalize_row rows,
       summary := [], failures := [] } : ScoreState) = st
  have hlen : st.scored.length = rows.length := by rw [← hst]; simp
  clear hst
  induction metrics generalizing st with
  | nil => exact hlen
  | cons n rest ih =>
    rw [List.foldl_cons]
    exact ih _ (by rw [score_step_scored_length]; exact hlen)

theorem mem_summary_keys_iff (rows : List Row) (metrics : List String) (scorer : Scorer)
    (n : String) :
    n ∈ List.map Prod.fst (score_rows rows metrics scorer).summary ↔
      n ∈ metrics ∧ ∃ srows a, score_metric rows scorer n = Except.ok (srows, some a) := by
  rw [score_rows_summary]
  simp only [List.mem_map, List.mem_filterMap]
  constructor
  · rintro ⟨⟨nm, q⟩, ⟨x, hx, hfx⟩, hfst⟩
    unfold summary_entry at hfx
    rcases hsm : score_metric rows scorer x with e | ⟨srows, avg⟩ <;> rw [hsm] at hfx
    · simp at hfx
    · rcases avg with _ | a
      · simp at hfx
      · simp only [Option.some.injEq, Prod.mk.injEq] at hfx
        obtain ⟨rfl, rfl⟩ := hfx
        simp only at hfst
        subst hfst
        exact ⟨hx, srows, a, hsm⟩
  · rintro ⟨hmem, srows, a, hsm⟩
    refine ⟨(n, a), ⟨n, hmem, ?_⟩, rfl⟩
    unfold summary_entry
    rw [hsm]

theorem mem_failures_iff (rows : List Row) (metrics : List String) (scorer : Scorer)
    (n : String) (e : String) :
    (n, e) ∈ (score_rows rows metrics scorer).failures ↔
      n ∈ metrics ∧ score_metric rows scorer n = Except.error e := by
  rw [score_rows_failures]
  simp only [List.mem_filterMap]
  constructor
  · rintro ⟨x, hx, hfx⟩
    unfold failure_entry at hfx
    rcases hsm : score_metric rows scorer x with e' | p <;> rw [hsm] at hfx
    · simp only [Option.some.injEq, Prod.mk.injEq] at hfx
      obtain ⟨rfl, rfl⟩ := hfx
      exact ⟨hx, hsm⟩
    · simp at hfx
  · rintro ⟨hmem, hsm⟩
    refine ⟨n, hmem, ?_⟩
    unfold failure_entry
    rw [hsm]

theorem mem_failure_keys_iff (rows : List Row) (metrics : List String) (scorer : Scorer)
    (n : String) :
    n ∈ List.map Prod.fst (score_rows rows metrics scorer).failures ↔
      n ∈ metrics ∧ ∃ e, score_metric rows scorer n = Except.error e := by
  rw [score_rows_failures]
  simp only [List.mem_map, List.mem_filterMap]
  constructor
  · rintro ⟨⟨nm, msg⟩, ⟨x, hx, hfx⟩, hfst⟩
    unfold failure_entry at hfx
    rcases hsm : score_metric rows scorer x with e' | p <;> rw [hsm] at hfx
    · simp only [Option.some.injEq, Prod.mk.injEq] at hfx
      obtain ⟨rfl, rfl⟩ := hfx
      simp only at hfst
      subst hfst
      exact ⟨hx, e', hsm⟩
    · simp at hfx
  · rintro ⟨hmem, e', hsm⟩
    refine ⟨(n, e'), ⟨n, hmem, ?_⟩, rfl⟩
    unfold failure_entry
    rw [hsm]

theorem merge_preserves_null (s mrows : List Row) (n m : String) (hnm : n ≠ m)
    (h : ∀ r ∈ s, Row.get r m = some Value.null) :
    ∀ r ∈ merge_metric_column s mrows n, Row.get r m = some Value.null := by
  induction s generalizing mrows with
  | nil =>
    intro r hr
    cases mrows <;> simp [merge_metric_column] at hr
  | cons x rest ih =>
    intro r hr
    cases mrows with
    | nil => exact h r hr
    | cons mr mrest =>
      simp only [merge_metric_column, List.mem_cons] at hr
      rcases hr with rfl | hr
      · rw [row_get_set_ne _ _ _ _ (fun hh => hnm hh.symm)]
        exact h x (by simp)
      · exact ih mrest (fun r hr => h r (by simp [hr])) r hr

theorem score_step_null (scorer : Scorer) (st : ScoreState) (n m : String)
    (hcase : n ≠ m ∨ ∃ e, score_metric st.originals scorer n = Except.error e)
    (h : ∀ r ∈ st.scored, Row.get r m = some Value.null) :
    ∀ r ∈ (score_step scorer st n).scored, Row.get r m = some Value.null := by
  unfold score_step
  rcases hsm : score_metric st.originals scorer n with e | ⟨mrows, avg⟩
  · intro r hr
    simp only [List.mem_map] at hr
    obtain ⟨r0, hr0, rfl⟩ := hr
    by_cases hnm : n = m
    · subst hnm
      exact row_get_set_same r0 n Value.null
    · rw [row_get_set_ne _ _ _ _ (fun hh => hnm hh.symm)]
      exact h r0 hr0
  · rcases hcase with hnm | ⟨e, he⟩
    · exact merge_preserves_null st.scored mrows n m hnm h
    · rw [hsm] at he
      exact absurd he (by simp)

theorem score_step_sets_null (scorer : Scorer) (st : ScoreState) (m : String) (e : String)
    (he : score_metric st.originals scorer m = Except.error e) :
    ∀ r ∈ (score_step scorer st m).scored, Row.get r m = some Value.null := by
  unfold score_step
  rw [he]
  intro r hr
  simp only [List.mem_map] at hr
  obtain ⟨r0, hr0, rfl⟩ := hr
  exact row_get_set_same r0 m Value.null

theorem foldl_score_step_null (scorer : Scorer) (l : List String) (st : ScoreState)
    (m : String) (e : String)
    (he : score_metric st.originals scorer m = Except.error e)
    (h : ∀ r ∈ st.scored, Row.get r m = some Value.null) :
    ∀ r ∈ (List.foldl (score_step scorer) st l).scored, Row.get r m = some Value.null := by
  induction l generalizing st with
  | nil => exact h
  | cons n rest ih =>
    rw [List.foldl_cons]
    refine ih _ ?_ ?_
    · rw [score_step_originals]
      exact he
    · by_cases hnm : n = m
      · subst hnm
        exact score_step_sets_null scorer st n e he
      · exact score_step_null scorer st n m (Or.inl hnm) h

theorem filterMap_filter_of_none {α β : Type} (f : α → Option β) (p : α → Bool)
    (l : List α) (h : ∀ x ∈ l, p x = false → f x = none) :
    List.filterMap f (l.filter p) = List.filterMap f l := by
  induction l with
  | nil => rfl
  | cons x rest ih =>
    rw [List.filter_cons]
    cases hp : p x with
    | true =>
      rw [if_pos rfl, List.filterMap_cons, List.filterMap_cons]
      rcases f x with _ | b
      · exact ih (fun y hy hpy => h y (by simp [hy]) hpy)
      · rw [ih (fun y hy hpy => h y (by simp [hy]) hpy)]
    | false =>
      rw [if_neg (by simp), List.filterMap_cons, h x (by simp) hp]
      exact ih (fun y hy hpy => h y (by simp [hy]) hpy)

/-! ## Claim theorems -/

/-- C6: for every record, the resolved group key is the constant `"all"`
when grouping is disabled, else the trimmed non-empty string `category`
field (taking precedence over `metadata.category`), else the trimmed
non-empty `metadata.category`, else `"uncategorized"` — i.e. the embedded
`get_group_key` coincides with the spec's Group Resolver contract
`resolve_group` on every record and grouping mode. -/
theorem c6_group_key_follows_spec (record : Row) (grouping_mode : String) :
    get_group_key record grouping_mode = resolve_group record grouping_mode := by
  have hmeta : group_key_from_metadata record
      = (match Row.get record "metadata" with
         | some (Value.obj fields) =>
           match (match List.lookup "category" fields with
                  | some (Value.str s) => if py_strip s = "" then none else some (py_strip s)
                  | _ => none) with
           | some c => c
           | none => "uncategorized"
         | _ => "uncategorized") := by
    unfold group_key_from_metadata
    rcases Row.get record "metadata" with _ | w
    · rfl
    · cases w <;> try rfl
      rename_i fields
      dsimp only
      rcases List.lookup "category" fields with _ | u
      · rfl
      · cases u <;> try rfl
        rename_i s
        by_cases ht : py_strip s = ""
        · simp [ht]
        · simp [ht]
  unfold get_group_key resolve_group trimmed_nonblank_string
  by_cases h : grouping_mode = "none"
  · simp [h]
  · have hb : (grouping_mode == "none") = false := by simpa using h
    simp only [hb, Bool.false_eq_true, if_false, if_neg h]
    rcases hc : Row.get record "category" with _ | v
    · exact hmeta
    · cases v <;> try exact hmeta
      rename_i s
      by_cases ht : py_strip s = ""
      · simpa [ht] using hmeta
      · simp [ht]

theorem insert_grouped_sum (grouped : List (String × List Row)) (key : String) (row : Row) :
    (List.map (fun p => p.2.length) (insert_grouped grouped key row)).sum
      = (List.map (fun p => p.2.length) grouped).sum + 1 := by
  induction grouped with
  | nil => simp [insert_grouped]
  | cons p rest ih =>
    rcases p with ⟨k, rs⟩
    unfold insert_grouped
    cases hk : (k == key) with
    | true =>
      simp
      omega
    | false =>
      simp only [Bool.false_eq_true, if_false, List.map_cons, List.sum_cons, ih]
      omega

/-- C8: for every input row list and grouping mode, the bucket sizes
produced by `group_rows` sum to the total number of input rows. -/
theorem c8_group_sizes_sum_to_total (rows : List Row) (group_by : String) :
    (List.map (fun p => p.2.length) (group_rows rows group_by)).sum = rows.length := by
  unfold group_rows
  suffices h : ∀ (rs : List Row) (acc : List (String × List Row)),
      (List.map (fun p => p.2.length)
        (List.foldl (fun acc row => insert_grouped acc (get_group_key row group_by) row)
          acc rs)).sum
        = (List.map (fun p => p.2.length) acc).sum + rs.length by
    simpa using h rows []
  intro rs
  induction rs with
  | nil => intro acc; simp
  | cons r rest ih =>
    intro acc
    rw [List.foldl_cons, ih, insert_grouped_sum]
    simp only [List.length_cons]
    omega

/-- C10: scoring never touches the input rows: the `originals` component of
the loop state — the row mappings `score_rows` was given, which every
`score_metric` call reads — is unchanged by the whole metric loop, and the
rows that receive score and null-marker writes start as freshly built
normalized copies of the inputs, which are what `score_rows` returns as the
scored rows. -/
theorem c10_scoring_preserves_input_rows (rows : List Row) (metrics : List String)
    (scorer : Scorer) :
    (score_rows rows metrics scorer).originals = rows
    ∧ (score_rows rows [] scorer).scored = List.map normalize_row rows := by
  constructor
  · unfold score_rows
    rw [foldl_score_step_originals]
  · rfl

/-- C3: if the external scorer fails for metric `m` with message `e`, then
after `score_rows` the message is captured under `m` in the failure map,
every scored row of the group (there are as many as input rows) carries a
null score for `m`, and the summaries of the remaining metrics are exactly
those of a run without `m` — one metric's failure never aborts the others. -/
theorem c3_metric_failure_isolation (rows : List Row) (metrics : List String)
    (scorer : Scorer) (m e : String)
    (hm : m ∈ metrics) (he : scorer m rows = Except.error e) :
    (m, e) ∈ (score_rows rows metrics scorer).failures
    ∧ (score_rows rows metrics scorer).scored.length = rows.length
    ∧ (∀ r ∈ (score_rows rows metrics scorer).scored, Row.get r m = some Value.null)
    ∧ (score_rows rows metrics scorer).summary
        = (score_rows rows (metrics.filter (fun n => n ≠ m)) scorer).summary := by
  have hsm : score_metric rows scorer m = Except.error e := by
    unfold score_metric
    rw [he]
  refine ⟨(mem_failures_iff rows metrics scorer m e).mpr ⟨hm, hsm⟩,
    score_rows_scored_length rows metrics scorer, ?_, ?_⟩
  · obtain ⟨l1, l2, rfl⟩ := List.append_of_mem hm
    unfold score_rows
    rw [List.foldl_append, List.foldl_cons]
    have ho : (List.foldl (score_step scorer)
        { originals := rows, scored := List.map normalize_row rows,
          summary := [], failures := [] } l1).originals = rows :=
      foldl_score_step_originals scorer l1 _
    have he' : score_metric (List.foldl (score_step scorer)
        { originals := rows, scored := List.map normalize_row rows,
          summary := [], failures := [] } l1).originals scorer m = Except.error e := by
      rw [ho]
      exact hsm
    refine foldl_score_step_null scorer l2 _ m e ?_ ?_
    · rw [score_step_originals]
      exact he'
    · exact score_step_sets_null scorer _ m e he'
  · rw [score_rows_summary, score_rows_summary]
    refine (filterMap_filter_of_none _ _ _ ?_).symm
    intro x hx hpx
    have hxm : x = m := by simpa using hpx
    subst hxm
    unfold summary_entry
    rw [hsm]

/-- A concrete one-row group used by witnesses: both `response` and
`reference` are present. -/
def demo_rows : List Row := [[("response", Value.str "a"), ("reference", Value.str "b")]]

/-- A concrete scorer that fails on metric `"m1"` and otherwise returns the
records with a score of 1 for the requested metric. -/
def demo_scorer : Scorer := fun name records =>
  if name == "m1" then Except.error "boom"
  else Except.ok (List.map (fun r => Row.set r name (Value.num 1)) records)

theorem c3_metric_failure_isolation_witness :
    (("m1" ∈ (["m1", "m2"] : List String))
      ∧ demo_scorer "m1" demo_rows = Except.error "boom")
    ∧ ((("m1", "boom") ∈ (score_rows demo_rows ["m1", "m2"] demo_scorer).failures)
      ∧ (score_rows demo_rows ["m1", "m2"] demo_scorer).scored.length = demo_rows.length
      ∧ (∀ r ∈ (score_rows demo_rows ["m1", "m2"] demo_scorer).scored,
          Row.get r "m1" = some Value.null)
      ∧ (score_rows demo_rows ["m1", "m2"] demo_scorer).summary
          = (score_rows demo_rows
              (List.filter (fun n => n ≠ "m1") ["m1", "m2"]) demo_scorer).summary) :=
  ⟨⟨by decide, by rfl⟩,
    c3_metric_failure_isolation demo_rows ["m1", "m2"] demo_scorer "m1" "boom"
      (by decide) (by rfl)⟩

/-- A scorer that succeeds but returns the records without any score
column, so no row yields a numeric value for the metric. -/
def silent_scorer : Scorer := fun _ records => Except.ok records

/-- C1 (counterexample): a selected metric can appear in neither the
summary nor the failure map. With one row carrying `response` and
`reference`, `semantic_similarity` is validly selected by an explicit
request, yet after scoring with a scorer that succeeds while producing no
numeric score, both the summary and the failure map are empty — refuting
"never in neither". -/
theorem c1_counterexample_neither :
    pick_metric_names demo_rows (some ["semantic_similarity"]) "misc"
      = Except.ok (["semantic_similarity"], ["semantic_similarity"])
    ∧ (score_rows demo_rows ["semantic_similarity"] silent_scorer).summary = []
    ∧ (score_rows demo_rows ["semantic_similarity"] silent_scorer).failures = [] :=
  ⟨by rfl, by rfl, by rfl⟩

/-- C1 (amended): for every selected metric, the metric's name never
appears in both the summary and the failure map; it appears in the failure
map exactly when the scorer failed for it, and in the summary exactly when
the scorer succeeded and at least one row produced a numeric score — so a
metric that succeeds with no numeric scores appears in neither. -/
theorem c1_summary_failures_mutually_exclusive (rows : List Row) (metrics : List String)
    (scorer : Scorer) (n : String) (hn : n ∈ metrics) :
    ¬ (n ∈ List.map Prod.fst (score_rows rows metrics scorer).summary
        ∧ n ∈ List.map Prod.fst (score_rows rows metrics scorer).failures)
    ∧ (n ∈ List.map Prod.fst (score_rows rows metrics scorer).failures
        ↔ ∃ e, score_metric rows scorer n = Except.error e)
    ∧ (n ∈ List.map Prod.fst (score_rows rows metrics scorer).summary
        ↔ ∃ srows a, score_metric rows scorer n = Except.ok (srows, some a)) := by
  refine ⟨?_, ?_, ?_⟩
  · rintro ⟨hs, hf⟩
    obtain ⟨-, srows, a, hok⟩ := (mem_summary_keys_iff rows metrics scorer n).mp hs
    obtain ⟨-, e, herr⟩ := (mem_failure_keys_iff rows metrics scorer n).mp hf
    rw [hok] at herr
    exact absurd herr (by simp)
  · rw [mem_failure_keys_iff]
    exact ⟨fun h => h.2, fun h => ⟨hn, h⟩⟩
  · rw [mem_summary_keys_iff]
    exact ⟨fun h => h.2, fun h => ⟨hn, h⟩⟩

theorem c1_summary_failures_mutually_exclusive_witness :
    (("m2" : String) ∈ (["m1", "m2"] : List String))
    ∧ (¬ ("m2" ∈ List.map Prod.fst (score_rows demo_rows ["m1", "m2"] demo_scorer).summary
          ∧ "m2" ∈ List.map Prod.fst (score_rows demo_rows ["m1", "m2"] demo_scorer).failures)
      ∧ ("m2" ∈ List.map Prod.fst (score_rows demo_rows ["m1", "m2"] demo_scorer).failures
          ↔ ∃ e, score_metric demo_rows demo_scorer "m2" = Except.error e)
      ∧ ("m2" ∈ List.map Prod.fst (score_rows demo_rows ["m1", "m2"] demo_scorer).summary
          ↔ ∃ srows a, score_metric demo_rows demo_scorer "m2" = Except.ok (srows, some a))) :=
  ⟨by decide,
    c1_summary_failures_mutually_exclusive demo_rows ["m1", "m2"] demo_scorer "m2" (by decide)⟩

/-- C7: when scoring metric `m` succeeds with scored rows `srows`, the
group summary records under `m` exactly the arithmetic mean of the numeric
values the metric produced across the rows — rows with a non-numeric or
absent value excluded — and when no row produced a numeric value, `m` is
omitted from the summary entirely. -/
theorem c7_summary_is_arithmetic_mean (rows : List Row) (metrics : List String)
    (scorer : Scorer) (m : String) (srows : List Row) (avg : Option ℚ)
    (hm : m ∈ metrics)
    (hok : score_metric rows scorer m = Except.ok (srows, avg)) :
    ((List.filterMap (fun r => value_as_float (Row.get r m)) srows) ≠ [] →
      (m, (List.filterMap (fun r => value_as_float (Row.get r m)) srows).sum
            / ((List.filterMap (fun r => value_as_float (Row.get r m)) srows).length : ℚ))
        ∈ (score_rows rows metrics scorer).summary)
    ∧ ((List.filterMap (fun r => value_as_float (Row.get r m)) srows) = [] →
      m ∉ List.map Prod.fst (score_rows rows metrics scorer).summary) := by
  have hok0 := hok
  unfold score_metric at hok
  rcases hs : scorer m rows with e | records <;> rw [hs] at hok
  · simp at hok
  · simp only [Except.ok.injEq, Prod.mk.injEq] at hok
    obtain ⟨hsr, havg⟩ := hok
    constructor
    · intro hne
      have hemp : (List.filterMap
          (fun row => value_as_float (Row.get row m)) srows).isEmpty = false := by
        rcases hl : List.filterMap (fun row => value_as_float (Row.get row m)) srows with
          _ | ⟨x, xs⟩
        · exact absurd hl hne
        · rfl
      have havg' : avg = some (fmean
          (List.filterMap (fun row => value_as_float (Row.get row m)) srows)) := by
        rw [← havg, hsr, hemp]
        rw [if_neg (by simp)]
      rw [score_rows_summary]
      refine List.mem_filterMap.mpr ⟨m, hm, ?_⟩
      unfold summary_entry
      rw [hok0, havg']
      rfl
    · intro hemp
      have hemp' : (List.filterMap
          (fun row => value_as_float (Row.get row m)) srows).isEmpty = true := by
        rw [hemp]
        rfl
      have havg' : avg = none := by
        rw [← havg, hsr, hemp']
        rw [if_pos rfl]
      intro hmem
      obtain ⟨-, srows', a, hok'⟩ := (mem_summary_keys_iff rows metrics scorer m).mp hmem
      rw [hok0, havg'] at hok'
      simp at hok'

theorem c7_summary_is_arithmetic_mean_witness :
    (("semantic_similarity" : String) ∈ (["semantic_similarity"] : List String)
      ∧ score_metric demo_rows silent_scorer "semantic_similarity"
          = Except.ok (demo_rows, (none : Option ℚ)))
    ∧ (((List.filterMap
          (fun r => value_as_float (Row.get r "semantic_similarity")) demo_rows) ≠ [] →
        ("semantic_similarity",
          (List.filterMap
            (fun r => value_as_float (Row.get r "semantic_similarity")) demo_rows).sum
            / ((List.filterMap
              (fun r => value_as_float (Row.get r "semantic_similarity")) demo_rows).length : ℚ))
          ∈ (score_rows demo_rows ["semantic_similarity"] silent_scorer).summary)
      ∧ ((List.filterMap
            (fun r => value_as_float (Row.get r "semantic_similarity")) demo_rows) = [] →
        "semantic_similarity" ∉ List.map Prod.fst
          (score_rows demo_rows ["semantic_similarity"] silent_scorer).summary)) :=
  ⟨⟨by decide, by rfl⟩,
    c7_summary_is_arithmetic_mean demo_rows ["semantic_similarity"] silent_scorer
      "semantic_similarity" demo_rows none (by decide) (by rfl)⟩

theorem chars_le_total (a b : List Char) : chars_le a b = true ∨ chars_le b a = true := by
  induction a generalizing b with
  | nil => left; rfl
  | cons x xs ih =>
    cases b with
    | nil => right; rfl
    | cons y ys =>
      by_cases hxy : x = y
      · subst hxy
        rcases ih ys with h | h
        · left; simpa [chars_le] using h
        · right; simpa [chars_le] using h
      · rcases lt_trichotomy x y with h | h | h
        · left; simp [chars_le, hxy, h]
        · exact absurd h hxy
        · right
          have hyx : ¬ y = x := fun hh => hxy hh.symm
          simp [chars_le, hyx, h]

theorem chars_le_trans (a b c : List Char) (hab : chars_le a b = true)
    (hbc : chars_le b c = true) : chars_le a c = true := by
  induction a generalizing b c with
  | nil => rfl
  | cons x xs ih =>
    cases b with
    | nil => simp [chars_le] at hab
    | cons y ys =>
      cases c with
      | nil => simp [chars_le] at hbc
      | cons z zs =>
        by_cases hxy : x = y
        · subst hxy
          rw [chars_le, if_pos rfl] at hab
          by_cases hyz : x = z
          · subst hyz
            rw [chars_le, if_pos rfl] at hbc ⊢
            exact ih ys zs hab hbc
          · rw [chars_le, if_neg hyz] at hbc ⊢
            exact hbc
        · rw [chars_le, if_neg hxy] at hab
          have hxyl : x < y := of_decide_eq_true hab
          by_cases hyz : y = z
          · subst hyz
            rw [chars_le, if_neg hxy]
            exact hab
          · rw [chars_le, if_neg hyz] at hbc
            have hyzl : y < z := of_decide_eq_true hbc
            have hxzl : x < z := lt_trans hxyl hyzl
            rw [chars_le, if_neg (ne_of_lt hxzl)]
            exact decide_eq_true hxzl

instance : IsTotal String (fun a b => py_str_le a b = true) :=
  ⟨fun a b => chars_le_total a.data b.data⟩

instance : IsTrans String (fun a b => py_str_le a b = true) :=
  ⟨fun a b c => chars_le_trans a.data b.data c.data⟩

theorem sorted_strings_perm (l : List String) : List.Perm (sorted_strings l) l :=
  List.perm_insertionSort (fun a b => py_str_le a b = true) l

theorem sorted_strings_sorted (l : List String) :
    List.Sorted (fun a b => py_str_le a b = true) (sorted_strings l) :=
  List.sorted_insertionSort (fun a b => py_str_le a b = true) l

theorem filter_not_contains_eq (l xs : List String) :
    xs.filter (fun n => !(List.contains l n)) = xs.filter (fun n => decide (n ∉ l)) := by
  apply List.filter_congr
  intro x hx
  simp

/-- C2: for a non-empty explicit metric request, `pick_metric_names` fails
with the unsupported-metric error — whose message enumerates the offending
names and the full supported set, both sorted in code-point order — when
any name is unknown; otherwise fails with the missing-fields error naming
the offending metrics when any requested metric is not eligible; otherwise
returns the request verbatim together with the eligible set. -/
theorem c2_explicit_request_validation (rows : List Row) (requested : List String)
    (group_name : String) (hne : requested ≠ []) :
    ((∃ n ∈ requested, n ∉ supported_metric_names) →
      pick_metric_names rows (some requested) group_name
        = Except.error (MetricError.unsupportedMetric
            ("Unsupported metrics: "
              ++ String.intercalate ", "
                (sorted_strings (requested.filter (fun n => decide (n ∉ supported_metric_names))))
              ++ ". Supported metrics: "
              ++ String.intercalate ", " (sorted_strings supported_metric_names)))
      ∧ List.Sorted (fun a b => py_str_le a b = true)
          (sorted_strings (requested.filter (fun n => decide (n ∉ supported_metric_names))))
      ∧ List.Perm
          (sorted_strings (requested.filter (fun n => decide (n ∉ supported_metric_names))))
          (requested.filter (fun n => decide (n ∉ supported_metric_names)))
      ∧ List.Sorted (fun a b => py_str_le a b = true) (sorted_strings supported_metric_names)
      ∧ List.Perm (sorted_strings supported_metric_names) supported_metric_names)
    ∧ ((∀ n ∈ requested, n ∈ supported_metric_names) →
      (∃ n ∈ requested, n ∉ available rows) →
      pick_metric_names rows (some requested) group_name
        = Except.error (MetricError.missingFields
            ("Requested metrics are missing required fields in at least one row: "
              ++ String.intercalate ", "
                (requested.filter (fun n => decide (n ∉ available rows))))))
    ∧ ((∀ n ∈ requested, n ∈ supported_metric_names) →
      (∀ n ∈ requested, n ∈ available rows) →
      pick_metric_names rows (some requested) group_name
        = Except.ok (requested, available rows)) := by
  have hreqe : requested.isEmpty = false := by
    cases requested
    · exact absurd rfl hne
    · rfl
  refine ⟨?_, ?_, ?_⟩
  · rintro ⟨n, hn, hns⟩
    have hmemf : n ∈ requested.filter (fun m => !(List.contains supported_metric_names m)) :=
      List.mem_filter.mpr ⟨hn, by simpa using hns⟩
    have hnonempty :
        (!(requested.filter (fun m => !(List.contains supported_metric_names m))).isEmpty)
          = true := by
      rcases hl : requested.filter (fun m => !(List.contains supported_metric_names m)) with
        _ | ⟨x, xs⟩
      · rw [hl] at hmemf; simp at hmemf
      · rfl
    refine ⟨?_, sorted_strings_sorted _, sorted_strings_perm _,
      sorted_strings_sorted _, sorted_strings_perm _⟩
    unfold pick_metric_names
    simp only [hreqe, Bool.false_eq_true, if_false, filter_not_contains_eq]
    rw [filter_not_contains_eq] at hnonempty
    rw [if_pos hnonempty]
  · intro hall
    rintro ⟨n, hn, hna⟩
    have hunsup : requested.filter (fun m => !(List.contains supported_metric_names m)) = [] :=
      List.filter_eq_nil_iff.mpr (fun a ha => by simpa using hall a ha)
    have hmemf : n ∈ requested.filter (fun m => !(List.contains (available rows) m)) :=
      List.mem_filter.mpr ⟨hn, by simpa using hna⟩
    have hnonempty :
        (!(requested.filter (fun m => !(List.contains (available rows) m))).isEmpty) = true := by
      rcases hl : requested.filter (fun m => !(List.contains (available rows) m)) with
        _ | ⟨x, xs⟩
      · rw [hl] at hmemf; simp at hmemf
      · rfl
    unfold pick_metric_names
    simp only [hreqe, Bool.false_eq_true, if_false, hunsup, List.isEmpty_nil,
      Bool.not_true, filter_not_contains_eq]
    rw [filter_not_contains_eq] at hnonempty
    rw [if_pos hnonempty]
  · intro hall hav
    have hunsup : requested.filter (fun m => !(List.contains supported_metric_names m)) = [] :=
      List.filter_eq_nil_iff.mpr (fun a ha => by simpa using hall a ha)
    have hmiss : requested.filter (fun m => !(List.contains (available rows) m)) = [] :=
      List.filter_eq_nil_iff.mpr (fun a ha => by simpa using hav a ha)
    unfold pick_metric_names
    simp only [hreqe, Bool.false_eq_true, if_false, hunsup, hmiss, List.isEmpty_nil,
      Bool.not_true]

theorem c2_explicit_request_validation_witness :
    ((["bogus_metric"] : List String) ≠ [])
    ∧ (((∃ n ∈ (["bogus_metric"] : List String), n ∉ supported_metric_names) →
      pick_metric_names demo_rows (some ["bogus_metric"]) "qa"
        = Except.error (MetricError.unsupportedMetric
            ("Unsupported metrics: "
              ++ String.intercalate ", "
                (sorted_strings
                  ((["bogus_metric"] : List String).filter
                    (fun n => decide (n ∉ supported_metric_names))))
              ++ ". Supported metrics: "
              ++ String.intercalate ", " (sorted_strings supported_metric_names)))
      ∧ List.Sorted (fun a b => py_str_le a b = true)
          (sorted_strings
            ((["bogus_metric"] : List String).filter
              (fun n => decide (n ∉ supported_metric_names))))
      ∧ List.Perm
          (sorted_strings
            ((["bogus_metric"] : List String).filter
              (fun n => decide (n ∉ supported_metric_names))))
          ((["bogus_metric"] : List String).filter
            (fun n => decide (n ∉ supported_metric_names)))
      ∧ List.Sorted (fun a b => py_str_le a b = true) (sorted_strings supported_metric_names)
      ∧ List.Perm (sorted_strings supported_metric_names) supported_metric_names)
    ∧ ((∀ n ∈ (["bogus_metric"] : List String), n ∈ supported_metric_names) →
      (∃ n ∈ (["bogus_metric"] : List String), n ∉ available demo_rows) →
      pick_metric_names demo_rows (some ["bogus_metric"]) "qa"
        = Except.error (MetricError.missingFields
            ("Requested metrics are missing required fields in at least one row: "
              ++ String.intercalate ", "
                ((["bogus_metric"] : List String).filter
                  (fun n => decide (n ∉ available demo_rows))))))
    ∧ ((∀ n ∈ (["bogus_metric"] : List String), n ∈ supported_metric_names) →
      (∀ n ∈ (["bogus_metric"] : List String), n ∈ available demo_rows) →
      pick_metric_names demo_rows (some ["bogus_metric"]) "qa"
        = Except.ok (["bogus_metric"], available demo_rows))) :=
  ⟨by decide, c2_explicit_request_validation demo_rows ["bogus_metric"] "qa" (by decide)⟩

theorem mem_available_iff (rows : List Row) (m : String) :
    m ∈ available rows ↔
      ∃ keys, (m, keys) ∈ requirements
        ∧ ∀ row ∈ rows, ∀ key ∈ keys, has_value row key = true := by
  unfold available
  simp only [List.mem_map, List.mem_filter, List.all_eq_true]
  constructor
  · rintro ⟨⟨m', keys⟩, ⟨hmem, hall⟩, rfl⟩
    exact ⟨keys, hmem, fun row hr key hk => hall row hr key hk⟩
  · rintro ⟨keys, hmem, hall⟩
    exact ⟨(m, keys), ⟨hmem, fun row hr key hk => hall row hr key hk⟩, rfl⟩

theorem requirements_keys_unique (m : String) (keys : List String)
    (h : (m, keys) ∈ requirements) : required_fields m = keys := by
  simp only [requirements, List.mem_cons, List.not_mem_nil, or_false,
    Prod.mk.injEq] at h
  rcases h with ⟨rfl, rfl⟩ | ⟨rfl, rfl⟩ | ⟨rfl, rfl⟩ | ⟨rfl, rfl⟩ | ⟨rfl, rfl⟩ <;> rfl

theorem mem_requirements_of_supported (m : String) (hm : m ∈ supported_metric_names) :
    (m, required_fields m) ∈ requirements := by
  simp only [supported_metric_names, requirements, List.map_cons, List.map_nil,
    List.mem_cons, List.not_mem_nil, or_false] at hm
  rcases hm with rfl | rfl | rfl | rfl | rfl <;> decide

/-- C4: a known metric is eligible for a group exactly when every row of
the group has a usable value — not null, not a blank string, not an empty
list, everything else (falsy numbers and booleans included) accepted — for
every one of the metric's required fields. -/
theorem c4_eligibility_iff_all_fields_usable (rows : List Row) (m : String)
    (hm : m ∈ supported_metric_names) :
    m ∈ available rows ↔
      ∀ row ∈ rows, ∀ key ∈ required_fields m, usable_value (Row.get row key) := by
  rw [mem_available_iff]
  constructor
  · rintro ⟨keys, hmem, hall⟩
    rw [requirements_keys_unique m keys hmem]
    intro row hr key hk
    exact (has_value_iff_usable row key).mp (hall row hr key hk)
  · intro h
    exact ⟨required_fields m, mem_requirements_of_supported m hm,
      fun row hr key hk => (has_value_iff_usable row key).mpr (h row hr key hk)⟩

theorem c4_eligibility_iff_all_fields_usable_witness :
    (("semantic_similarity" : String) ∈ supported_metric_names)
    ∧ ("semantic_similarity" ∈ available demo_rows ↔
        ∀ row ∈ demo_rows, ∀ key ∈ required_fields "semantic_similarity",
          usable_value (Row.get row key)) :=
  ⟨by decide,
    c4_eligibility_iff_all_fields_usable demo_rows "semantic_similarity" (by decide)⟩

theorem filter_contains_eq (avail xs : List String) :
    xs.filter (fun n => List.contains avail n) = xs.filter (fun n => decide (n ∈ avail)) := by
  apply List.filter_congr
  intro x hx
  simp

theorem auto_selected_eq_spec (avail : List String) (group_name : String) :
    auto_selected avail group_name = spec_auto_selection avail group_name := by
  unfold auto_selected spec_auto_selection get_default_metric_preferences
  by_cases h1 : normalize_group_name group_name = "qa"
  · have hb1 : (normalize_group_name group_name == "qa") = true := by simp [h1]
    rw [if_pos hb1, if_pos h1]
    dsimp only
    rw [filter_contains_eq avail ["semantic_similarity", "factual_correctness"]]
    rcases hf : List.filter (fun n => decide (n ∈ avail))
        ["semantic_similarity", "factual_correctness"] with _ | ⟨x, xs⟩ <;> simp [hf]
  · have hb1 : (normalize_group_name group_name == "qa") = false := by simpa using h1
    rw [if_neg (by simp [hb1]), if_neg h1]
    by_cases h2 : normalize_group_name group_name = "work-search"
        ∨ normalize_group_name group_name = "work"
    · have hb2 : (normalize_group_name group_name == "work-search"
          || normalize_group_name group_name == "work") = true := by
        rcases h2 with h2 | h2 <;> simp [h2]
      rw [if_pos hb2, if_pos h2]
      dsimp only
      rw [filter_contains_eq avail ["semantic_similarity"]]
      rcases hf : List.filter (fun n => decide (n ∈ avail))
          ["semantic_similarity"] with _ | ⟨x, xs⟩ <;> simp [hf]
    · have hb2 : (normalize_group_name group_name == "work-search"
          || normalize_group_name group_name == "work") = false := by
        push_neg at h2
        simp [h2.1, h2.2]
      rw [if_neg (by simp [hb2]), if_neg h2]

/-- C5: with an empty (or absent) requested metric list, selection succeeds
and follows the spec's auto-selection rule — the default preference table
keyed by the normalized group name, filtered to the eligible metrics, used
when non-empty, else the full eligible set — and returns the eligible set,
which is always listed in canonical metric declaration order. -/
theorem c5_auto_selection_follows_spec (rows : List Row) (group_name : String) :
    pick_metric_names rows none group_name
      = Except.ok (spec_auto_selection (available rows) group_name, available rows)
    ∧ pick_metric_names rows (some []) group_name
      = Except.ok (spec_auto_selection (available rows) group_name, available rows)
    ∧ List.Sublist (available rows) supported_metric_names := by
  refine ⟨?_, ?_, ?_⟩
  · unfold pick_metric_names
    dsimp only
    rw [auto_selected_eq_spec]
  · unfold pick_metric_names
    dsimp only
    rw [if_pos (by rfl : (([] : List String).isEmpty) = true), auto_selected_eq_spec]
  · unfold available supported_metric_names
    exact List.Sublist.map Prod.fst (List.filter_sublist requirements)

/-- C9: a group whose metric selection yields zero metrics is reported, not
failed: `main`'s per-group step returns a report with an empty selected
list, empty summary, the single advisory failure entry under the `_group`
sentinel key, and the group's rows — normalized and tagged with the group
name — still included. -/
theorem c9_zero_selected_metrics_reported (scorer : Scorer)
    (requested_metrics : Option (List String)) (group_name : String)
    (group_rows_list : List Row) (avail : List String)
    (h : pick_metric_names group_rows_list requested_metrics group_name
      = Except.ok ([], avail)) :
    process_group scorer requested_metrics group_name group_rows_list
      = Except.ok
          { row_count := group_rows_list.length
            selected_metrics := []
            auto_available_metrics := avail
            summary := []
            metric_failures := [("_group", no_metrics_advisory)]
            rows := List.map (tag_evaluation_group group_name)
              (List.map normalize_row group_rows_list) } := by
  unfold process_group
  rw [h]
  rfl

theorem c9_zero_selected_metrics_reported_witness :
    (pick_metric_names [[("foo", Value.str "x")]] none "misc"
      = Except.ok ([], []))
    ∧ process_group silent_scorer none "misc" [[("foo", Value.str "x")]]
      = Except.ok
          { row_count := ([[("foo", Value.str "x")]] : List Row).length
            selected_metrics := []
            auto_available_metrics := []
            summary := []
            metric_failures := [("_group", no_metrics_advisory)]
            rows := List.map (tag_evaluation_group "misc")
              (List.map normalize_row [[("foo", Value.str "x")]]) } :=
  ⟨by rfl,
    c9_zero_selected_metrics_reported silent_scorer none "misc"
      [[("foo", Value.str "x")]] [] (by rfl)⟩
